import Mathlib

/-!
Shallow embedding of the `ImageViewer` module of the social-encounters
repository (source file: the image-viewer script, first variant), covering
the path/index normalizers, the viewer state, the static `show` entry point,
the socket receive handler `registerSocket`, the navigation operations
`#advance` / `#showAt`, and the render/close scheduler bookkeeping.
-/

namespace SocialEncounters

/-- JS whitespace test used by `String.prototype.trim`. -/
def jsWs (c : Char) : Bool := c.isWhitespace

/-- Embedding of JS `String.prototype.trim`: drop whitespace from both ends. -/
def jsTrim (s : String) : String :=
  ⟨(s.data.dropWhile jsWs).rdropWhile jsWs⟩

/-- A JS value appearing as an entry of a payload `images` array: either a
string or some non-string value (`normalizePaths` maps non-strings to `""`). -/
inductive JVal where
  | vstr (s : String)
  | vother
deriving DecidableEq, Repr

/-- A JS value appearing in a `background` position: a string, the literal
`null`, or any other non-string value (`normalizeBackground` returns `null`
for every non-string). -/
inductive BgVal where
  | bstr (s : String)
  | bnull
  | bother
deriving DecidableEq, Repr

/-- A JS value appearing in an `index` position: absent (`undefined`),
`null`, a finite number (modelled as an integer), or any other value
(non-finite number or non-number). -/
inductive JIdx where
  | absent
  | null
  | fin (n : Int)
  | other
deriving DecidableEq, Repr

/-- Source `isFiniteNumber`: `typeof value === "number" && Number.isFinite(value)`. -/
def isFiniteNumber : JIdx → Bool
  | .fin _ => true
  | _ => false

/-- Source `clampIndex(index, total)`: non-finite input yields 0; an empty
list yields 0; negative input yields 0; input `≥ total` yields `total - 1`;
otherwise the input itself. -/
def clampIndex (index : JIdx) (total : Nat) : Int :=
  match index with
  | .fin i =>
    if total = 0 then 0
    else if i < 0 then 0
    else if i ≥ (total : Int) then (total : Int) - 1
    else i
  | _ => 0

/-- Source `normalizePaths(paths)`: non-arrays yield `[]` (`none` models both
an absent field and any non-array value); array entries that are strings are
trimmed, non-strings become `""`, then empty strings are filtered out. -/
def normalizePaths : Option (List JVal) → List String
  | none => []
  | some xs =>
    (xs.map fun v => match v with | .vstr s => jsTrim s | .vother => "").filter
      fun s => s.length > 0

/-- Source `normalizeBackground(background)`: non-strings yield `null`;
strings are trimmed, blank results yield `null`. -/
def normalizeBackground : BgVal → Option String
  | .bstr s => let t := jsTrim s; if t.length > 0 then some t else none
  | _ => none

/-- The per-instance viewer state `{images, background, index}` of the
`ImageViewer` class. -/
structure ViewerState where
  images : List String
  background : Option String
  index : Int
deriving DecidableEq, Repr

/-- The `ImageViewer` constructor: normalizes `images` and `background` and
clamps `startIndex` against the normalized list length. -/
def mkViewer (images : Option (List JVal)) (background : BgVal)
    (startIndex : JIdx) : ViewerState :=
  let imgs := normalizePaths images
  { images := imgs
    background := normalizeBackground background
    index := clampIndex startIndex imgs.length }

/-- Outcome of one call to the static `ImageViewer.show`: the singleton
`_instance` afterwards, the value returned to the caller (`none` both for an
explicit `null` return and when the call throws), and whether it threw. -/
structure ShowOutcome where
  active : Option ViewerState
  returned : Option ViewerState
  threw : Bool
deriving DecidableEq, Repr

/-- Static `ImageViewer.show({images, background, startIndex})` with the
render result supplied by the oracle `renderOk` (whether `renderTemplate`
succeeds). If `normalizePaths(images)` is empty, `show` returns `null` before
touching `_instance`. Otherwise any previous instance is closed, a fresh
instance is constructed and registered, and its first render runs:
`#renderInternal` with an empty image list closes the instance (clearing
`_instance`) and succeeds; a failing render clears `_instance` and rethrows. -/
def showStep (images : Option (List JVal)) (background : BgVal)
    (startIndex : JIdx) (renderOk : Bool)
    (active0 : Option ViewerState) : ShowOutcome :=
  let prepared := normalizePaths images
  if prepared = [] then
    { active := active0, returned := none, threw := false }
  else
    let inst := mkViewer (some (prepared.map JVal.vstr)) background startIndex
    if inst.images = [] then
      { active := none, returned := some inst, threw := false }
    else if renderOk then
      { active := some inst, returned := some inst, threw := false }
    else
      { active := none, returned := none, threw := true }

/-- An inbound socket payload: `type` and `userId` fields (string or absent),
an `images` field (`some` models an array, `none` an absent field or any
non-array value), a `background` field (`none` models `undefined`, i.e. the
field absent), and an `index` field. -/
structure Payload where
  type : Option String
  userId : Option String
  images : Option (List JVal)
  background : Option BgVal
  index : JIdx
deriving DecidableEq, Repr

/-- The value actually passed in `background` position when the handler
forwards the payload to `show`: an absent field arrives as `undefined`,
which `normalizeBackground` treats like any non-string. -/
def bgOfOpt : Option BgVal → BgVal
  | none => BgVal.bother
  | some b => b

/-- The handler computes `index ?? 0` (and the SHOW case destructures with
default 0): `undefined` and `null` become the finite number 0, everything
else passes through. -/
def idxCoalesce : JIdx → JIdx
  | .absent => .fin 0
  | .null => .fin 0
  | j => j

/-- `SOCKET_EVENTS.SHOW` -/
def showEvent : String := "show"

/-- `SOCKET_EVENTS.UPDATE` -/
def updateEvent : String := "update"

/-- `SOCKET_EVENTS.CLOSE` -/
def closeEvent : String := "close"

/-- The sparse branch of the UPDATE case of `handlePayload`: requires an
existing instance; overwrites `background` when the field is present,
overwrites `index` (re-clamped against the image list length) when it is a
finite number, then re-renders. The only state effect of that re-render is
that `#renderInternal` closes the viewer when its image list is empty;
a render failure is caught by the handler and leaves state as assigned. -/
def updateSparse (p : Payload) (active0 : Option ViewerState) :
    Option ViewerState :=
  match active0 with
  | none => none
  | some s =>
    let s1 := match p.background with
      | none => s
      | some b => { s with background := normalizeBackground b }
    let s2 := if isFiniteNumber p.index then
        { s1 with index := clampIndex p.index s1.images.length }
      else s1
    if s2.images = [] then none else some s2

/-- The socket receive handler `handlePayload` installed by
`ImageViewer.registerSocket`, as a function from the payload and the current
singleton `_instance` to the resulting `_instance`. A falsy `type` (absent or
empty) discards; a `userId` equal to the local identity discards; SHOW with a
non-array or empty `images` discards, otherwise runs `show`; UPDATE with a
non-empty array `images` runs `show`, otherwise the sparse reconciliation;
CLOSE closes the active instance if any; unknown types discard. Exceptions
(a failing `show`) are caught, leaving whatever state `show` produced. -/
def handlePayload (localId : String) (renderOk : Bool) (p : Payload)
    (active0 : Option ViewerState) : Option ViewerState :=
  match p.type with
  | none => active0
  | some t =>
    if t = "" then active0
    else if p.userId = some localId then active0
    else if t = showEvent then
      match p.images with
      | some xs =>
        if xs = [] then active0
        else (showStep (some xs) (bgOfOpt p.background) (idxCoalesce p.index)
          renderOk active0).active
      | none => active0
    else if t = updateEvent then
      match p.images with
      | some xs =>
        if xs = [] then updateSparse p active0
        else (showStep (some xs) (bgOfOpt p.background) (idxCoalesce p.index)
          renderOk active0).active
      | none => updateSparse p active0
    else if t = closeEvent then
      match active0 with
      | none => active0
      | some _ => none
    else active0

/-- Source `#showAt(target)` (state part): no-op on an empty image list;
otherwise clamp the target and assign it unless it already equals the current
index (the re-render and GM re-sync have no effect on `{images, background,
index}`). -/
def showAt (s : ViewerState) (target : Int) : ViewerState :=
  if s.images = [] then s
  else
    let bounded := clampIndex (.fin target) s.images.length
    if bounded = s.index then s
    else { s with index := bounded }

/-- Source `#advance(step)`: no-op on an empty image list; otherwise compute
`(index + step + length) % length` with the JS `%` operator — a truncating
remainder, `Int.tmod` — and delegate to `#showAt`. -/
def advance (s : ViewerState) (step : Int) : ViewerState :=
  if s.images = [] then s
  else
    let nextIndex := Int.tmod (s.index + step + (s.images.length : Int))
      (s.images.length : Int)
    showAt s nextIndex

/-- Promise-bookkeeping state of one viewer instance for the render/close
scheduler: `_closingPromise` and `_renderPromise` (as promise identifiers),
whether the visible surface (the DOM `element`) is attached, how many times
it has been removed, and a fresh-identifier counter. -/
structure Sched where
  closingPromise : Option Nat
  renderPromise : Option Nat
  element : Bool
  removals : Nat
  nextId : Nat
deriving DecidableEq, Repr

/-- Result of one synchronous entry into `close()`: the promise returned to
the caller, the bookkeeping state right after the call returns, and whether
this call started a new teardown (`performClose`). -/
structure CloseCallResult where
  returnedPromise : Nat
  post : Sched
  startedTeardown : Bool
deriving DecidableEq, Repr

/-- Source `close()` (synchronous prefix): if `_closingPromise` is set, return
it unchanged; otherwise start `performClose`, store the new promise in
`_closingPromise`, and return it. -/
def closeCall (st : Sched) : CloseCallResult :=
  match st.closingPromise with
  | some c => { returnedPromise := c, post := st, startedTeardown := false }
  | none =>
    { returnedPromise := st.nextId
      post := { st with closingPromise := some st.nextId, nextId := st.nextId + 1 }
      startedTeardown := true }

/-- Completion of one `performClose` teardown: removes the element (counting
the removal) when it is attached, clears `element`, and the `finally` clears
`_closingPromise`. -/
def runTeardown (st : Sched) : Sched :=
  let st1 := if st.element then
      { st with element := false, removals := st.removals + 1 }
    else { st with element := false }
  { st1 with closingPromise := none }

/-- Resolution outcome of a promise. -/
inductive Outcome where
  | ok
  | err
deriving DecidableEq, Repr

/-- The ordered suspension/execution events of one `render()` call: awaiting
the pending close, awaiting (and observing the outcome of) the previous
in-flight render, and running the newly started render to its outcome. -/
inductive RenderEv where
  | awaitClose (id : Nat)
  | awaitPrevRender (id : Nat) (out : Outcome)
  | runNewRender (id : Nat) (out : Outcome)
deriving DecidableEq, Repr

/-- Trace of one `render()` call: its events in execution order, whether the
call rejects, and the bookkeeping state after its `finally`. -/
structure RenderRun where
  events : List RenderEv
  throws : Bool
  post : Sched
deriving DecidableEq, Repr

/-- Source `render()`: await `_closingPromise` if set; await `_renderPromise`
if set, catching its failure; then start a fresh `#renderInternal`, store it
in `_renderPromise`, await it, and clear `_renderPromise` in the `finally`.
The call rejects exactly when the new render fails (`newOut = err`): a
previous render's failure is swallowed. `prevOut` and `newOut` are oracles
for the outcomes of the awaited previous render and of the new render. -/
def renderCall (st : Sched) (prevOut newOut : Outcome) : RenderRun :=
  let closeEvs := match st.closingPromise with
    | some c => [RenderEv.awaitClose c]
    | none => []
  let prevEvs := match st.renderPromise with
    | some r => [RenderEv.awaitPrevRender r prevOut]
    | none => []
  { events := closeEvs ++ prevEvs ++ [RenderEv.runNewRender st.nextId newOut]
    throws := newOut = Outcome.err
    post := { st with renderPromise := none, nextId := st.nextId + 1 } }

/-- A concrete scheduler state with no close in progress and the surface
attached. -/
def sampleSchedIdle : Sched :=
  { closingPromise := none, renderPromise := none, element := true,
    removals := 0, nextId := 1 }

/-- A concrete scheduler state with a close (promise 3) and a render
(promise 1) in flight. -/
def sampleSchedBusy : Sched :=
  { closingPromise := some 3, renderPromise := some 1, element := true,
    removals := 0, nextId := 7 }

/-! ## Helper lemmas -/

theorem dropWhile_fix_mono {p : Char → Bool} {a b : List Char}
    (ha : a.dropWhile p = a) (hba : b <+: a) : b.dropWhile p = b := by
  cases b with
  | nil => simp
  | cons x xs =>
    obtain ⟨t, ht⟩ := hba
    have hx : ¬ p x := by
      intro hpx
      rw [← ht, List.cons_append, List.dropWhile_cons_of_pos hpx] at ha
      have hle : ((xs ++ t).dropWhile p).length ≤ (xs ++ t).length :=
        (List.dropWhile_suffix p).length_le
      rw [ha] at hle
      simp at hle
    exact List.dropWhile_cons_of_neg hx

theorem jsTrim_idem (s : String) : jsTrim (jsTrim s) = jsTrim s := by
  show String.mk _ = String.mk _
  congr 1
  have h1 : (s.data.dropWhile jsWs).dropWhile jsWs = s.data.dropWhile jsWs :=
    List.dropWhile_idempotent jsWs s.data
  have hpre := List.rdropWhile_prefix jsWs (s.data.dropWhile jsWs)
  have h2 : ((s.data.dropWhile jsWs).rdropWhile jsWs).dropWhile jsWs =
      (s.data.dropWhile jsWs).rdropWhile jsWs := dropWhile_fix_mono h1 hpre
  show (((s.data.dropWhile jsWs).rdropWhile jsWs).dropWhile jsWs).rdropWhile jsWs =
    (s.data.dropWhile jsWs).rdropWhile jsWs
  rw [h2]
  exact List.rdropWhile_idempotent jsWs (s.data.dropWhile jsWs)

theorem normalizePaths_sound {x : Option (List JVal)} {t : String}
    (ht : t ∈ normalizePaths x) : jsTrim t = t ∧ 0 < t.length := by
  cases x with
  | none => simp [normalizePaths] at ht
  | some xs =>
    simp only [normalizePaths, List.mem_filter, List.mem_map, decide_eq_true_eq] at ht
    obtain ⟨⟨v, hv, hvt⟩, hlen⟩ := ht
    refine ⟨?_, hlen⟩
    cases v with
    | vstr s =>
      rw [← hvt]
      exact jsTrim_idem s
    | vother =>
      exfalso
      rw [← hvt] at hlen
      simp at hlen

theorem normalizePaths_vstr_idem (x : Option (List JVal)) :
    normalizePaths (some ((normalizePaths x).map JVal.vstr)) = normalizePaths x := by
  have hmap : ((normalizePaths x).map JVal.vstr).map
      (fun v => match v with | .vstr s => jsTrim s | .vother => "") =
      normalizePaths x := by
    rw [List.map_map]
    have := List.map_congr_left (l := normalizePaths x)
      (f := fun s => jsTrim s) (g := id)
      (fun a ha => (normalizePaths_sound ha).1)
    simpa using this
  show (((normalizePaths x).map JVal.vstr).map _).filter _ = normalizePaths x
  rw [hmap]
  rw [List.filter_eq_self]
  intro a ha
  simpa using (normalizePaths_sound ha).2

theorem showAt_images (s : ViewerState) (t : Int) : (showAt s t).images = s.images := by
  unfold showAt
  split
  · rfl
  · dsimp only
    split <;> rfl

theorem advance_images (s : ViewerState) (step : Int) :
    (advance s step).images = s.images := by
  unfold advance
  split
  · rfl
  · exact showAt_images s _

theorem clampIndex_fin (i : Int) (L : Nat) :
    clampIndex (JIdx.fin i) L = if L = 0 then 0 else if i < 0 then 0
      else if i ≥ (L : Int) then (L : Int) - 1 else i := rfl

theorem clampIndex_absent (L : Nat) : clampIndex JIdx.absent L = 0 := rfl

theorem clampIndex_null (L : Nat) : clampIndex JIdx.null L = 0 := rfl

theorem clampIndex_other (L : Nat) : clampIndex JIdx.other L = 0 := rfl

theorem clampIndex_pos_bounds (v : JIdx) (L : Nat) (hL : 0 < L) :
    0 ≤ clampIndex v L ∧ clampIndex v L < (L : Int) := by
  cases v with
  | fin i =>
    rw [clampIndex_fin]
    split_ifs <;> constructor <;> omega
  | absent => rw [clampIndex_absent]; constructor <;> omega
  | null => rw [clampIndex_null]; constructor <;> omega
  | other => rw [clampIndex_other]; constructor <;> omega

theorem advance_index_emod (s : ViewerState) (step : Int)
    (hne : s.images ≠ [])
    (h0 : 0 ≤ s.index + step + (s.images.length : Int)) :
    (advance s step).index =
      (s.index + step + (s.images.length : Int)) % (s.images.length : Int) := by
  have hlen0 : s.images.length ≠ 0 := by
    simpa using hne
  have hL : 0 < (s.images.length : Int) := by
    omega
  have htm : Int.tmod (s.index + step + (s.images.length : Int))
      ((s.images.length : Int)) =
      (s.index + step + (s.images.length : Int)) % (s.images.length : Int) :=
    Int.tmod_eq_emod h0 (le_of_lt hL)
  have hr0 : 0 ≤ (s.index + step + (s.images.length : Int)) % (s.images.length : Int) :=
    Int.emod_nonneg _ (ne_of_gt hL)
  have hrL : (s.index + step + (s.images.length : Int)) % (s.images.length : Int) <
      (s.images.length : Int) :=
    Int.emod_lt_of_pos _ hL
  unfold advance
  rw [if_neg hne]
  dsimp only
  rw [htm]
  unfold showAt
  rw [if_neg hne]
  dsimp only
  have hcl : clampIndex
      (JIdx.fin ((s.index + step + (s.images.length : Int)) % (s.images.length : Int)))
      s.images.length =
      (s.index + step + (s.images.length : Int)) % (s.images.length : Int) := by
    rw [clampIndex_fin, if_neg hlen0, if_neg (not_lt.mpr hr0), if_neg (not_le.mpr hrL)]
  rw [hcl]
  split
  · next heq => exact heq.symm
  · rfl

theorem advance_one_iter (n : Nat) (s : ViewerState)
    (hne : s.images ≠ []) (h0 : 0 ≤ s.index)
    (hL : s.index < (s.images.length : Int)) :
    ((fun t => advance t 1)^[n] s).index =
      (s.index + (n : Int)) % (s.images.length : Int) := by
  induction n generalizing s with
  | zero =>
    simp [Int.emod_eq_of_lt h0 hL]
  | succ n ih =>
    rw [Function.iterate_succ_apply]
    have hlen0 : s.images.length ≠ 0 := by simpa using hne
    have hLpos : 0 < (s.images.length : Int) := by omega
    have h1 : 0 ≤ s.index + 1 + (s.images.length : Int) := by omega
    have himg : (advance s 1).images = s.images := advance_images s 1
    have hidx : (advance s 1).index =
        (s.index + 1 + (s.images.length : Int)) % (s.images.length : Int) :=
      advance_index_emod s 1 hne h1
    have hne2 : (advance s 1).images ≠ [] := by rw [himg]; exact hne
    have ha0 : 0 ≤ (advance s 1).index := by
      rw [hidx]; exact Int.emod_nonneg _ (ne_of_gt hLpos)
    have haL : (advance s 1).index < ((advance s 1).images.length : Int) := by
      rw [himg, hidx]; exact Int.emod_lt_of_pos _ hLpos
    have hstep := ih (advance s 1) hne2 ha0 haL
    rw [hstep, himg, hidx, Int.emod_add_emod]
    have harr : s.index + 1 + (s.images.length : Int) + (n : Int) =
        s.index + ((n : Int) + 1) + (s.images.length : Int) * 1 := by ring
    rw [harr, Int.add_mul_emod_self_left]
    push_cast
    ring_nf

/-! ## Claim theorems -/

/-- C1: receive-side reconciliation of an inbound Update message that carries
no images field and only an index leaves the images list and the background
untouched and changes only the index, re-clamped against the image list
length. -/
theorem C1_update_index_only (localId : String) (renderOk : Bool) (p : Payload)
    (s : ViewerState) (n : Int)
    (ht : p.type = some updateEvent)
    (hu : p.userId ≠ some localId)
    (himg : p.images = none)
    (hbg : p.background = none)
    (hidx : p.index = JIdx.fin n)
    (hne : s.images ≠ []) :
    handlePayload localId renderOk p (some s) =
      some { s with index := clampIndex (JIdx.fin n) s.images.length } := by
  simp [handlePayload, updateSparse, isFiniteNumber, ht, hu, himg, hbg, hidx, hne,
    showEvent, updateEvent, closeEvent]

/-- C2: an inbound Update message whose images field is present, a sequence,
and non-empty leads the receiver to exactly the state a Show message with the
same images, background and index payload would produce, for any prior local
state including none. -/
theorem C2_update_images_show_equiv (localId : String) (renderOk : Bool)
    (p : Payload) (active0 : Option ViewerState) (xs : List JVal)
    (ht : p.type = some updateEvent)
    (himg : p.images = some xs) (hxs : xs ≠ []) :
    handlePayload localId renderOk p active0 =
      handlePayload localId renderOk { p with type := some showEvent } active0 := by
  simp [handlePayload, ht, himg, hxs, showEvent, updateEvent, closeEvent]

/-- C3: an inbound message whose senderId (userId) equals the receiver's own
identity is never applied: the local viewer state is unchanged regardless of
the message's type or payload. -/
theorem C3_self_echo_discard (localId : String) (renderOk : Bool) (p : Payload)
    (active0 : Option ViewerState) (h : p.userId = some localId) :
    handlePayload localId renderOk p active0 = active0 := by
  unfold handlePayload
  cases htype : p.type with
  | none => rfl
  | some t =>
    by_cases hte : t = ""
    · simp [hte]
    · simp [hte, h]

/-- C4: an inbound Show message whose images field is absent, not a sequence
(both modelled by `none`), or an empty sequence is discarded and the
receiver's local viewer state is unchanged. -/
theorem C4_show_empty_discard (localId : String) (renderOk : Bool) (p : Payload)
    (active0 : Option ViewerState)
    (ht : p.type = some showEvent)
    (himg : p.images = none ∨ p.images = some []) :
    handlePayload localId renderOk p active0 = active0 := by
  by_cases hu : p.userId = some localId
  · rcases himg with h | h <;>
      simp [handlePayload, ht, hu, h, showEvent]
  · rcases himg with h | h <;>
      simp [handlePayload, ht, hu, h, showEvent]

/-- C9: calling the static ImageViewer.show with an images argument that is
not an array or whose entries all normalize away returns null, without
closing or modifying the currently active viewer instance. -/
theorem C9_show_invalid_images (images : Option (List JVal)) (bg : BgVal)
    (idx : JIdx) (renderOk : Bool) (active0 : Option ViewerState)
    (h : normalizePaths images = []) :
    showStep images bg idx renderOk active0 =
      { active := active0, returned := none, threw := false } := by
  simp [showStep, h]

/-- C10: if the initial render inside the static ImageViewer.show fails, show
clears the singleton active-instance reference back to null and rethrows. -/
theorem C10_show_render_failure (images : Option (List JVal)) (bg : BgVal)
    (idx : JIdx) (active0 : Option ViewerState)
    (h : normalizePaths images ≠ []) :
    (showStep images bg idx false active0).active = none ∧
      (showStep images bg idx false active0).threw = true := by
  have hinst : (mkViewer (some ((normalizePaths images).map JVal.vstr)) bg idx).images
      = normalizePaths images := by
    simp only [mkViewer]
    exact normalizePaths_vstr_idem images
  simp [showStep, h, hinst]

/-- C5 (counterexample): the claim that advance(step) always sets the index
to the non-negative (index + step + length) mod length for a step of any
magnitude fails: on images [a,b,c] at index 0, advance(-5) computes the JS
truncating remainder (0 - 5 + 3) % 3 = -2, which clampIndex maps to 0, not
to the mathematical mod value 1. -/
theorem C5_counterexample :
    (advance { images := ["a", "b", "c"], background := none, index := 0 }
        (-5)).index ≠
      ((0 : Int) + (-5) + 3) % 3 := by decide

/-- C5 (amended): on a non-empty image list, whenever
index + step + length ≥ 0 (in particular for the steps ±1 the UI uses),
advance(step) sets the index to (index + step + length) mod length with a
non-negative result; advancing n times by +1 from a clamped index i yields
(i + n) mod length; advance is a no-op on an empty image list. For more
negative steps the JS truncating remainder is negative and clampIndex maps
it to 0. -/
theorem C5_advance_amended :
    (∀ (s : ViewerState) (step : Int), s.images ≠ [] →
      0 ≤ s.index + step + (s.images.length : Int) →
      (advance s step).index =
          (s.index + step + (s.images.length : Int)) % (s.images.length : Int) ∧
        0 ≤ (advance s step).index) ∧
    (∀ (s : ViewerState) (n : Nat), s.images ≠ [] → 0 ≤ s.index →
      s.index < (s.images.length : Int) →
      ((fun t => advance t 1)^[n] s).index =
        (s.index + (n : Int)) % (s.images.length : Int)) ∧
    (∀ (s : ViewerState) (step : Int), s.images = [] → advance s step = s) := by
  refine ⟨?_, ?_, ?_⟩
  · intro s step hne h0
    have hlen0 : s.images.length ≠ 0 := by simpa using hne
    have hL : 0 < (s.images.length : Int) := by omega
    have heq := advance_index_emod s step hne h0
    exact ⟨heq, heq ▸ Int.emod_nonneg _ (ne_of_gt hL)⟩
  · intro s n hne h0 hL
    exact advance_one_iter n s hne h0 hL
  · intro s step hemp
    unfold advance
    rw [if_pos hemp]

/-- C6: clampIndex yields an index inside [0, L) whenever the image list is
non-empty (for finite inputs of any sign or magnitude and for non-finite
inputs, which map to 0) and yields 0 when the list is empty; the constructor
yields index 0 on an empty normalized list; #showAt keeps the index inside
[0, L) on a non-empty list and is a no-op on an empty one. -/
theorem C6_index_always_clamped :
    (∀ (v : JIdx) (L : Nat), 0 < L →
      0 ≤ clampIndex v L ∧ clampIndex v L < (L : Int)) ∧
    (∀ v : JIdx, clampIndex v 0 = 0) ∧
    (∀ (imgs : Option (List JVal)) (bg : BgVal) (idx : JIdx),
      normalizePaths imgs = [] → (mkViewer imgs bg idx).index = 0) ∧
    (∀ (s : ViewerState) (t : Int), s.images ≠ [] →
      0 ≤ (showAt s t).index ∧ (showAt s t).index < (s.images.length : Int)) ∧
    (∀ (s : ViewerState) (t : Int), s.images = [] → showAt s t = s) := by
  refine ⟨clampIndex_pos_bounds, ?_, ?_, ?_, ?_⟩
  · intro v
    cases v with
    | fin i => rw [clampIndex_fin]; simp
    | absent => rfl
    | null => rfl
    | other => rfl
  · intro imgs bg idx hempty
    simp [mkViewer, hempty]
    cases idx with
    | fin i => rw [clampIndex_fin]; simp
    | absent => rfl
    | null => rfl
    | other => rfl
  · intro s t hne
    have hlen0 : s.images.length ≠ 0 := by simpa using hne
    have hL : 0 < s.images.length := by omega
    have hb := clampIndex_pos_bounds (JIdx.fin t) s.images.length hL
    unfold showAt
    rw [if_neg hne]
    dsimp only
    split
    · next heq => exact heq ▸ hb
    · exact hb
  · intro s t hemp
    unfold showAt
    rw [if_pos hemp]

/-- C7: close() is idempotent under concurrent invocation: starting from a
viewer with no close in progress, the first close() starts the teardown; a
second close() before it completes returns the very same closing promise,
changes nothing, and starts no second teardown; running the single teardown
removes the visible surface exactly once. -/
theorem C7_close_idempotent (st : Sched)
    (hcl : st.closingPromise = none) (hel : st.element = true) :
    (closeCall st).startedTeardown = true ∧
    closeCall (closeCall st).post =
      { returnedPromise := (closeCall st).returnedPromise,
        post := (closeCall st).post, startedTeardown := false } ∧
    (runTeardown (closeCall st).post).removals = st.removals + 1 ∧
    (runTeardown (closeCall st).post).element = false := by
  simp [closeCall, runTeardown, hcl, hel]

/-- C8: render() first awaits any pending close; a previous in-flight render
is awaited immediately before the new render starts and its failure is
swallowed (the call rejects exactly when the new render fails, independently
of the previous outcome); a new render is always started, so a prior failed
render never prevents a subsequent attempt, and the new render only runs
after the previous one has completed. -/
theorem C8_render_scheduling (st : Sched) (prevOut newOut : Outcome) :
    (∀ c, st.closingPromise = some c →
      (renderCall st prevOut newOut).events.head? =
        some (RenderEv.awaitClose c)) ∧
    (∀ r, st.renderPromise = some r →
      ∃ pre, (renderCall st prevOut newOut).events =
        pre ++ [RenderEv.awaitPrevRender r prevOut,
          RenderEv.runNewRender st.nextId newOut]) ∧
    ((renderCall st prevOut newOut).throws = decide (newOut = Outcome.err)) ∧
    RenderEv.runNewRender st.nextId newOut ∈
      (renderCall st prevOut newOut).events := by
  refine ⟨?_, ?_, ?_, ?_⟩
  · intro c hc
    simp [renderCall, hc]
  · intro r hr
    cases hc : st.closingPromise with
    | none => exact ⟨[], by simp [renderCall, hc, hr]⟩
    | some c => exact ⟨[RenderEv.awaitClose c], by simp [renderCall, hc, hr]⟩
  · rfl
  · simp [renderCall]

/-! ## Witnesses -/

/-- C1 witness: reconciling Update with only index 2 against
images [a,b,c], index 0, background bg yields index 2 with background and
images untouched. -/
theorem C1_witness :
    handlePayload "gm" true
      { type := some "update", userId := some "peer", images := none,
        background := none, index := JIdx.fin 2 }
      (some { images := ["a", "b", "c"], background := some "bg", index := 0 }) =
      some { images := ["a", "b", "c"], background := some "bg", index := 2 } := by
  have h := C1_update_index_only "gm" true
    { type := some "update", userId := some "peer", images := none,
      background := none, index := JIdx.fin 2 }
    { images := ["a", "b", "c"], background := some "bg", index := 0 } 2
    rfl (by decide) rfl rfl rfl (by decide)
  rw [h]
  rfl

/-- C2 witness: an Update carrying a non-empty images array is handled
exactly like the corresponding Show, here against an empty local state. -/
theorem C2_witness :
    handlePayload "gm" true
      { type := some "update", userId := some "peer",
        images := some [JVal.vstr "x"], background := none,
        index := JIdx.absent } none =
      handlePayload "gm" true
        { type := some "show", userId := some "peer",
          images := some [JVal.vstr "x"], background := none,
          index := JIdx.absent } none :=
  C2_update_images_show_equiv "gm" true
    { type := some "update", userId := some "peer",
      images := some [JVal.vstr "x"], background := none,
      index := JIdx.absent } none [JVal.vstr "x"] rfl rfl (by decide)

/-- C3 witness: a Close message from the receiver's own id is discarded. -/
theorem C3_witness :
    handlePayload "gm" true
      { type := some "close", userId := some "gm", images := none,
        background := none, index := JIdx.absent }
      (some { images := ["a"], background := none, index := 0 }) =
      some { images := ["a"], background := none, index := 0 } :=
  C3_self_echo_discard "gm" true
    { type := some "close", userId := some "gm", images := none,
      background := none, index := JIdx.absent }
    (some { images := ["a"], background := none, index := 0 }) rfl

/-- C4 witness: a Show message with an empty images array leaves the local
state unchanged. -/
theorem C4_witness :
    handlePayload "gm" true
      { type := some "show", userId := some "peer", images := some [],
        background := some (BgVal.bstr "new"), index := JIdx.fin 1 }
      (some { images := ["a"], background := none, index := 0 }) =
      some { images := ["a"], background := none, index := 0 } :=
  C4_show_empty_discard "gm" true
    { type := some "show", userId := some "peer", images := some [],
      background := some (BgVal.bstr "new"), index := JIdx.fin 1 }
    (some { images := ["a"], background := none, index := 0 }) rfl (Or.inr rfl)

/-- C5 witness: advance(+1) from index 2 on three images wraps to
(2+1+3) mod 3 = 0, and four +1 steps from index 0 land on (0+4) mod 3 = 1. -/
theorem C5_witness :
    (advance { images := ["a", "b", "c"], background := none, index := 2 }
        1).index = ((2 : Int) + 1 + 3) % 3 ∧
    ((fun t => advance t 1)^[4]
        { images := ["a", "b", "c"], background := none, index := 0 }).index =
      ((0 : Int) + (4 : Int)) % 3 :=
  ⟨(C5_advance_amended.1
      { images := ["a", "b", "c"], background := none, index := 2 } 1
      (by decide) (by decide)).1,
    C5_advance_amended.2.1
      { images := ["a", "b", "c"], background := none, index := 0 } 4
      (by decide) (by decide) (by decide)⟩

/-- C6 witness: clampIndex keeps a negative finite input inside [0, 3), and
showAt with an out-of-range target keeps the index inside [0, 2). -/
theorem C6_witness :
    (0 ≤ clampIndex (JIdx.fin (-7)) 3 ∧ clampIndex (JIdx.fin (-7)) 3 < (3 : Int)) ∧
    (0 ≤ (showAt { images := ["a", "b"], background := none, index := 0 } 9).index ∧
      (showAt { images := ["a", "b"], background := none, index := 0 } 9).index <
        (2 : Int)) :=
  ⟨C6_index_always_clamped.1 (JIdx.fin (-7)) 3 (by decide),
    C6_index_always_clamped.2.2.2.1
      { images := ["a", "b"], background := none, index := 0 } 9 (by decide)⟩

/-- C7 witness: from an idle scheduler, the second of two close calls returns
the first call's promise without a second teardown, and the teardown removes
the surface exactly once. -/
theorem C7_witness :
    (closeCall sampleSchedIdle).startedTeardown = true ∧
    closeCall (closeCall sampleSchedIdle).post =
      { returnedPromise := (closeCall sampleSchedIdle).returnedPromise,
        post := (closeCall sampleSchedIdle).post, startedTeardown := false } ∧
    (runTeardown (closeCall sampleSchedIdle).post).removals =
      sampleSchedIdle.removals + 1 ∧
    (runTeardown (closeCall sampleSchedIdle).post).element = false :=
  C7_close_idempotent sampleSchedIdle rfl rfl

/-- C8 witness: with close 3 and render 1 in flight, render() awaits close 3
first, and the failed previous render 1 is awaited right before the new
render 7 starts. -/
theorem C8_witness :
    (renderCall sampleSchedBusy Outcome.err Outcome.ok).events.head? =
        some (RenderEv.awaitClose 3) ∧
    (∃ pre, (renderCall sampleSchedBusy Outcome.err Outcome.ok).events =
      pre ++ [RenderEv.awaitPrevRender 1 Outcome.err,
        RenderEv.runNewRender 7 Outcome.ok]) :=
  ⟨(C8_render_scheduling sampleSchedBusy Outcome.err Outcome.ok).1 3 rfl,
    (C8_render_scheduling sampleSchedBusy Outcome.err Outcome.ok).2.1 1 rfl⟩

/-- C9 witness: show with a whitespace-only string and a non-string entry
returns null and leaves the active viewer untouched. -/
theorem C9_witness :
    showStep (some [JVal.vstr "   ", JVal.vother]) BgVal.bnull JIdx.absent true
      (some { images := ["a"], background := none, index := 0 }) =
      { active := some { images := ["a"], background := none, index := 0 },
        returned := none, threw := false } :=
  C9_show_invalid_images (some [JVal.vstr "   ", JVal.vother]) BgVal.bnull
    JIdx.absent true (some { images := ["a"], background := none, index := 0 })
    (by decide)

/-- C10 witness: show with a valid image whose first render fails clears the
singleton and rethrows. -/
theorem C10_witness :
    (showStep (some [JVal.vstr "a"]) BgVal.bnull JIdx.absent false none).active =
        none ∧
    (showStep (some [JVal.vstr "a"]) BgVal.bnull JIdx.absent false none).threw =
        true :=
  C10_show_render_failure (some [JVal.vstr "a"]) BgVal.bnull JIdx.absent none
    (by decide)

end SocialEncounters
